import Mathlib

/-!
Shallow embedding of the course-catalog viewer (src/script.js) and proofs
about it.

JavaScript values that can appear in a parsed JSON document are modelled by
`JSValue`.  JSON numbers are modelled as integers (all numbers occurring in
the verified properties are integers).  The distinguished JavaScript value
`undefined` is modelled by `Option.none` at property-access sites
(`getField`), never stored in a `Course`.

Modelling conventions, stated once here and referenced from the individual
definitions:
  - JS string comparison (`<` on strings, used by the default `Array.sort`
    comparator and modelling `localeCompare`) is modelled by Lean's
    lexicographic `String` order on characters, which agrees with UTF-16
    code-unit order for all code points below U+10000.
  - `Array.prototype.sort` with a consistent comparator is, per the
    ECMAScript specification, a stable sort by the comparator; it is
    modelled by `List.insertionSort` with the relation `cmp a b ≤ 0`,
    which is exactly that stable sort.
-/

inductive JSValue where
  | null
  | bool (b : Bool)
  | num (n : Int)
  | str (s : String)
  | arr (elems : List JSValue)
  | obj (fields : List (String × JSValue))

mutual

/-- Structural equality of JS values, modelling the SameValueZero comparison
used by `Set` membership.  (For primitive values — the only values the
verified properties put into sets — SameValueZero coincides with structural
equality; object identity is approximated structurally.) -/
def JSValue.beq : JSValue → JSValue → Bool
  | .null, .null => true
  | .bool a, .bool b => a == b
  | .num a, .num b => a == b
  | .str a, .str b => a == b
  | .arr as, .arr bs => JSValue.beqList as bs
  | .obj as, .obj bs => JSValue.beqFields as bs
  | _, _ => false

def JSValue.beqList : List JSValue → List JSValue → Bool
  | [], [] => true
  | a :: as, b :: bs => JSValue.beq a b && JSValue.beqList as bs
  | _, _ => false

def JSValue.beqFields : List (String × JSValue) → List (String × JSValue) → Bool
  | [], [] => true
  | (k1, v1) :: as, (k2, v2) :: bs => k1 == k2 && JSValue.beq v1 v2 && JSValue.beqFields as bs
  | _, _ => false

end

/-- JavaScript truthiness of a value (`if (v)`, `v || d`, `v ? a : b`). -/
def truthy : JSValue → Bool
  | .null => false
  | .bool b => b
  | .num n => n != 0
  | .str s => s != ""
  | .arr _ => true
  | .obj _ => true

def JSValue.isNull : JSValue → Bool
  | .null => true
  | _ => false

def JSValue.isStr : JSValue → Bool
  | .str _ => true
  | _ => false

def JSValue.isNum : JSValue → Bool
  | .num _ => true
  | _ => false

def JSValue.isArr : JSValue → Bool
  | .arr _ => true
  | _ => false

mutual

/-- JavaScript `String(v)` coercion.  Arrays stringify by joining their
elements with `","`, with `null` elements contributing the empty string. -/
def jsToString : JSValue → String
  | .null => "null"
  | .bool b => cond b "true" "false"
  | .num n => toString n
  | .str s => s
  | .arr elems => String.intercalate "," (jsToStringElems elems)
  | .obj _ => "[object Object]"

def jsToStringElems : List JSValue → List String
  | [] => []
  | .null :: rest => "" :: jsToStringElems rest
  | v :: rest => jsToString v :: jsToStringElems rest

end

/-- Property read `raw[key]` on a parsed JSON object, modelled over its field
list.  `JSON.parse` keeps the last occurrence of a duplicated key, hence the
left fold; a missing key yields `none` (JavaScript `undefined`). -/
def getField (fields : List (String × JSValue)) (key : String) : Option JSValue :=
  fields.foldl (fun acc p => if p.1 = key then some p.2 else acc) none

/-- The JavaScript pattern `raw.key || d`: the property value when present
and truthy, the default `d` otherwise (absent, `null`, or any falsy value).
-/
def orDefault (v : Option JSValue) (d : JSValue) : JSValue :=
  match v with
  | some w => if truthy w then w else d
  | none => d

/-- A normalized course record (class `Course`, src/script.js lines 5–24).
Fields hold the JS values stored by the constructor. -/
structure Course where
  id : JSValue
  title : JSValue
  department : JSValue
  level : JSValue
  credits : JSValue
  instructor : JSValue
  description : JSValue
  semester : JSValue

/-- The `Course` constructor (src/script.js lines 6–17): every field is
`raw.field || default`, with `null` as the default for `level`, `credits`
and `instructor` and a sentinel string for the other five fields. -/
def Course.ofRaw (raw : List (String × JSValue)) : Course where
  id := orDefault (getField raw "id") (.str "Unknown ID")
  title := orDefault (getField raw "title") (.str "Untitled course")
  department := orDefault (getField raw "department") (.str "Unknown department")
  level := orDefault (getField raw "level") .null
  credits := orDefault (getField raw "credits") .null
  instructor := orDefault (getField raw "instructor") .null
  description := orDefault (getField raw "description") (.str "No description available.")
  semester := orDefault (getField raw "semester") (.str "Unknown semester")

/-- Method `getInstructorLabel` (src/script.js lines 20–23):
`this.instructor ? this.instructor : 'TBA'`. -/
def Course.getInstructorLabel (c : Course) : JSValue :=
  if truthy c.instructor then c.instructor else .str "TBA"

/-- JavaScript `str.split(sep)` for a one-character separator, over the
character list: splits at every occurrence, keeping empty pieces. -/
def splitChars (sep : Char) : List Char → List (List Char)
  | [] => [[]]
  | c :: cs =>
    if c = sep then [] :: splitChars sep cs
    else (c :: (splitChars sep cs).headD []) :: (splitChars sep cs).tail

/-- JavaScript `parseInt(s, 10) || 0` over the character list of `s`: skip
leading whitespace, read an optional sign and then leading decimal digits;
no digits (`NaN`) — and `parseInt` results of `0` — give `0`. -/
def jsParseIntOr0 (cs : List Char) : Int :=
  let trimmed := cs.dropWhile (fun c => c = ' ' || c = '\t' || c = '\n' || c = '\r')
  match trimmed with
  | '-' :: rest =>
    let ds := rest.takeWhile Char.isDigit
    if ds.isEmpty then 0 else -(ds.foldl (fun acc c => acc * 10 + (c.toNat - 48)) 0 : Nat)
  | '+' :: rest =>
    let ds := rest.takeWhile Char.isDigit
    if ds.isEmpty then 0 else (ds.foldl (fun acc c => acc * 10 + (c.toNat - 48)) 0 : Nat)
  | other =>
    let ds := other.takeWhile Char.isDigit
    if ds.isEmpty then 0 else (ds.foldl (fun acc c => acc * 10 + (c.toNat - 48)) 0 : Nat)

/-- Helper `semesterToNumber` inside `sortCourses` (src/script.js lines
262–291): falsy semester yields `0`; otherwise split on `' '`, rank the term
token (Winter 1, Spring 2, Summer 3, Fall 4, otherwise 0), parse the year
token (`parts[1]`, with a missing token behaving like `parseInt(undefined)`,
i.e. `0` after `|| 0`), and return `year * 10 + termOrder`.  A truthy
non-string semester would make the source throw a `TypeError` at
`.split`; that case is modelled as `0` and every theorem that sorts by
semester only does so at string semesters. -/
def semesterToNumber (semString : JSValue) : Int :=
  if truthy semString = false then 0
  else
    match semString with
    | .str s =>
      let parts := splitChars ' ' s.data
      let term := parts.headD []
      let year := jsParseIntOr0 (parts.getD 1 [])
      let termOrder : Int :=
        if term = "Winter".data then 1
        else if term = "Spring".data then 2
        else if term = "Summer".data then 3
        else if term = "Fall".data then 4
        else 0
      year * 10 + termOrder
    | _ => 0

/-- Strict lexicographic comparison of character lists by code point,
the order JavaScript's `<` imposes on strings (see the header note). -/
def charListLt : List Char → List Char → Bool
  | [], [] => false
  | [], _ :: _ => true
  | _ :: _, [] => false
  | a :: as, b :: bs =>
    if a.toNat < b.toNat then true
    else if b.toNat < a.toNat then false
    else charListLt as bs

def jsStrLt (a b : String) : Bool :=
  charListLt a.data b.data

/-- The corresponding non-strict order (`a ≤ b` iff `¬ b < a`). -/
def jsStrLe (a b : String) : Bool :=
  !jsStrLt b a

/-- Model of `a.localeCompare(b)`: locale-aware comparison is modelled as
the lexicographic string order (see the header note). -/
def localeCompare (a b : String) : Int :=
  if jsStrLt a b then -1 else if jsStrLt b a then 1 else 0

/-- The comparator passed to `coursesArray.sort` in `sortCourses`
(src/script.js lines 294–313).  String fields are read through `jsToString`
(`localeCompare` coerces its argument; a non-string receiver would throw in
the source and the selection/sorting theorems assume string-typed fields
where this matters). -/
def courseCmp (sortValue : String) (a b : Course) : Int :=
  match sortValue with
  | "id-asc" => localeCompare (jsToString a.id) (jsToString b.id)
  | "id-desc" => localeCompare (jsToString b.id) (jsToString a.id)
  | "title-asc" => localeCompare (jsToString a.title) (jsToString b.title)
  | "title-desc" => localeCompare (jsToString b.title) (jsToString a.title)
  | "sem-earliest" => semesterToNumber a.semester - semesterToNumber b.semester
  | "sem-latest" => semesterToNumber b.semester - semesterToNumber a.semester
  | _ => 0

/-- Function `sortCourses` (src/script.js lines 255–314): `'none'` keeps the
filtered order, any other key stable-sorts by the comparator (see the header
note on modelling `Array.prototype.sort`). -/
def sortCourses (coursesArray : List Course) (sortValue : String) : List Course :=
  if sortValue = "none" then coursesArray
  else List.insertionSort (fun a b => courseCmp sortValue a b ≤ 0) coursesArray

/-- The four filter dropdown values plus the sort dropdown value, as read at
the top of `applyFiltersAndSort` (src/script.js lines 216–220). -/
structure Selection where
  dept : String
  level : String
  credits : String
  instructor : String
  sort : String

/-- JavaScript strict equality `v === s` against a known string `s`. -/
def strictEqStr (v : JSValue) (s : String) : Bool :=
  match v with
  | .str t => t == s
  | _ => false

/-- The filter predicate of `applyFiltersAndSort` (src/script.js lines
223–238): each of the four fields either has selection `"All"` or must
match — `department` and the instructor label by strict equality against the
selection string, `level` and `credits` by `String(...)` coercion. -/
def coursePasses (sel : Selection) (course : Course) : Bool :=
  let matchesDept := (sel.dept == "All") || strictEqStr course.department sel.dept
  let matchesLevel := (sel.level == "All") || (jsToString course.level == sel.level)
  let matchesCredits := (sel.credits == "All") || (jsToString course.credits == sel.credits)
  let matchesInstructor := (sel.instructor == "All") || strictEqStr course.getInstructorLabel sel.instructor
  matchesDept && matchesLevel && matchesCredits && matchesInstructor

/-- The mutable page state the script keeps: the two course arrays
(src/script.js lines 27–28), the id shown in the details panel
(`renderCourseDetails` / `markSelectedCourse`; `none` models the
no-course-selected placeholder), and the error paragraph set by `setError`.
-/
structure AppState where
  allCourses : List Course
  filteredCourses : List Course
  selectedId : Option JSValue
  errorMsg : String

def initialState : AppState :=
  { allCourses := [], filteredCourses := [], selectedId := none, errorMsg := "" }

/-- Function `applyFiltersAndSort` (src/script.js lines 207–252): with an
empty catalog it only re-renders (details panel cleared, `filteredCourses`
untouched); otherwise it filters, sorts, and shows the first result (or the
placeholder when nothing passes). -/
def applyFiltersAndSort (s : AppState) (sel : Selection) : AppState :=
  match s.allCourses with
  | [] => { s with selectedId := none }
  | _ =>
    let filtered := sortCourses (s.allCourses.filter (coursePasses sel)) sel.sort
    { s with
      filteredCourses := filtered
      selectedId := match filtered with
        | [] => none
        | c :: _ => some c.id }

/-- Property access on an element of the parsed root array, as performed by
`new Course(courseObj)`: reading a property of `null` throws (`none`);
objects expose their fields; other values expose none of the course keys. -/
def propSource : JSValue → Option (List (String × JSValue))
  | .null => none
  | .obj fields => some fields
  | _ => some []

/-- The `jsonData.forEach` loop of `reader.onload` (src/script.js lines
76–78): normalize every element in order; a `null` element makes the whole
load throw (`none`), which the surrounding `try` turns into the failure
path. -/
def coursesOfJson : List JSValue → Option (List Course)
  | [] => some []
  | v :: rest =>
    match propSource v with
    | none => none
    | some fields => (coursesOfJson rest).map (fun cs => Course.ofRaw fields :: cs)

/-- The selection in force right after a successful load: repopulating the
four filter dropdowns (`populateFilterDropdowns` rebuilds their options)
resets each of them to `"All"`, while the sort dropdown keeps its value. -/
def allAllSelection (sortv : String) : Selection :=
  { dept := "All", level := "All", credits := "All", instructor := "All", sort := sortv }

/-- Handler `reader.onload` (src/script.js lines 61–98).  The argument is
the outcome of `JSON.parse(reader.result)`: `none` for a parse error.  A
non-array root, a parse error, or a throwing element all land in the
`catch`, which sets the error message and clears both arrays; success
replaces the catalog and re-applies filters and sort. -/
def onload (s : AppState) (sortv : String) (parsed : Option JSValue) : AppState :=
  match parsed with
  | some (.arr elems) =>
    match coursesOfJson elems with
    | some cs =>
      applyFiltersAndSort
        { s with allCourses := cs, filteredCourses := [], errorMsg := "" }
        (allAllSelection sortv)
    | none =>
      { s with allCourses := [], filteredCourses := [], selectedId := none,
               errorMsg := "Invalid JSON file format." }
  | _ =>
    { s with allCourses := [], filteredCourses := [], selectedId := none,
             errorMsg := "Invalid JSON file format." }

/-- Handler `reader.onerror` (src/script.js lines 101–103): it only sets the
error message — the course arrays and the rendered page are left as they
were. -/
def readError (s : AppState) : AppState :=
  { s with errorMsg := "Could not read file. please try again." }

/-- JavaScript `ToNumber` as used by the numeric sort comparator
`(a, b) => a - b`.  Numbers are the only case the option-derivation
theorems rely on (their hypotheses make every sorted value a number);
the remaining coercions (string parsing, `NaN` production) are modelled
as `0`. -/
def jsToNumber : JSValue → Int
  | .null => 0
  | .bool b => cond b 1 0
  | .num n => n
  | _ => 0

/-- The default (comparator-less) `Array.sort` comparison: compare
`String(x)` with `String(y)` lexicographically, negative/zero/positive. -/
def defaultCompare (a b : JSValue) : Int :=
  if jsStrLt (jsToString a) (jsToString b) then -1
  else if jsStrLt (jsToString b) (jsToString a) then 1
  else 0

/-- The numeric comparator `(a, b) => a - b` passed to `.sort` for levels
and credits (src/script.js lines 153–154). -/
def numCompare (a b : JSValue) : Int :=
  jsToNumber a - jsToNumber b

/-- `Set.add`: append the value unless an equal one is already present
(insertion order preserved, duplicates dropped). -/
def setAdd (s : List JSValue) (v : JSValue) : List JSValue :=
  if s.any (fun w => JSValue.beq w v) then s else s ++ [v]

/-- One iteration of the `allCourses.forEach` loop of
`populateFilterDropdowns` (src/script.js lines 130–143): add the
department, the level and credits only when not `null` (the `undefined`
check of the source cannot fire — normalized fields are never
`undefined`), and the instructor label to the respective sets. -/
def collectStep (acc : List JSValue × List JSValue × List JSValue × List JSValue)
    (course : Course) : List JSValue × List JSValue × List JSValue × List JSValue :=
  (setAdd acc.1 course.department,
   if course.level.isNull then acc.2.1 else setAdd acc.2.1 course.level,
   if course.credits.isNull then acc.2.2.1 else setAdd acc.2.2.1 course.credits,
   setAdd acc.2.2.2 course.getInstructorLabel)

/-- The four `Set`s accumulated over `allCourses`, in insertion order. -/
def collectOptionSets (courses : List Course) :
    List JSValue × List JSValue × List JSValue × List JSValue :=
  courses.foldl collectStep ([], [], [], [])

/-- The per-field option sequences appended to the dropdowns (after the
fixed `"All"` entry). -/
structure FilterOptions where
  departments : List JSValue
  levels : List JSValue
  credits : List JSValue
  instructors : List JSValue

/-- The data computed by `populateFilterDropdowns` (src/script.js lines
122–186): the four deduplicated value sets, departments and instructors
sorted by the default comparator and levels and credits by the numeric
comparator. -/
def deriveOptions (courses : List Course) : FilterOptions :=
  let sets := collectOptionSets courses
  { departments := List.insertionSort (fun a b => defaultCompare a b ≤ 0) sets.1
    levels := List.insertionSort (fun a b => numCompare a b ≤ 0) sets.2.1
    credits := List.insertionSort (fun a b => numCompare a b ≤ 0) sets.2.2.1
    instructors := List.insertionSort (fun a b => defaultCompare a b ≤ 0) sets.2.2.2 }

/-- The two-course scenario catalog of the specification:
`[{"id":"CS101"},{"id":"CS202","level":3,"credits":4,"instructor":"A. Lee","semester":"Fall 2024"}]`. -/
def cs101 : Course := Course.ofRaw [("id", .str "CS101")]

def cs202 : Course := Course.ofRaw
  [("id", .str "CS202"), ("level", .num 3), ("credits", .num 4),
   ("instructor", .str "A. Lee"), ("semester", .str "Fall 2024")]

def scenarioCatalog : List Course := [cs101, cs202]

/-- Single-field courses for the semester-sort example of the
specification. -/
def fall2020C : Course := Course.ofRaw [("semester", .str "Fall 2020")]

def spring2021C : Course := Course.ofRaw [("semester", .str "Spring 2021")]

def winter2021C : Course := Course.ofRaw [("semester", .str "Winter 2021")]

def JSValue.isPrim : JSValue → Bool
  | .arr _ => false
  | .obj _ => false
  | _ => true

/-! Order lemmas for the lexicographic character-list comparison. -/

theorem charListLt_asymm : ∀ a b : List Char, charListLt a b = true → charListLt b a = false := by
  intro a
  induction a with
  | nil =>
    intro b h
    cases b with
    | nil => simp [charListLt] at h
    | cons y ys => simp [charListLt]
  | cons x xs ih =>
    intro b h
    cases b with
    | nil => simp [charListLt] at h
    | cons y ys =>
      simp only [charListLt] at h ⊢
      by_cases h1 : x.toNat < y.toNat
      · have h2 : ¬ y.toNat < x.toNat := by omega
        simp [h1, h2]
      · by_cases h2 : y.toNat < x.toNat
        · simp [h1, h2] at h
        · simp only [if_neg h1, if_neg h2] at h ⊢
          exact ih ys h

theorem charListLt_trans :
    ∀ a b c : List Char, charListLt a b = true → charListLt b c = true → charListLt a c = true := by
  intro a
  induction a with
  | nil =>
    intro b c hab hbc
    cases b with
    | nil => simp [charListLt] at hab
    | cons y ys =>
      cases c with
      | nil => simp [charListLt] at hbc
      | cons z zs => simp [charListLt]
  | cons x xs ih =>
    intro b c hab hbc
    cases b with
    | nil => simp [charListLt] at hab
    | cons y ys =>
      cases c with
      | nil => simp [charListLt] at hbc
      | cons z zs =>
        simp only [charListLt] at hab hbc ⊢
        by_cases hxy : x.toNat < y.toNat
        · by_cases hyz : y.toNat < z.toNat
          · have : x.toNat < z.toNat := by omega
            simp [this]
          · by_cases hzy : z.toNat < y.toNat
            · simp [hyz, hzy] at hbc
            · have : x.toNat < z.toNat := by omega
              simp [this]
        · by_cases hyx : y.toNat < x.toNat
          · simp [hxy, hyx] at hab
          · have hxy' : x.toNat = y.toNat := by omega
            by_cases hyz : y.toNat < z.toNat
            · have : x.toNat < z.toNat := by omega
              simp [this]
            · by_cases hzy : z.toNat < y.toNat
              · simp [hyz, hzy] at hbc
              · have h1 : ¬ x.toNat < z.toNat := by omega
                have h2 : ¬ z.toNat < x.toNat := by omega
                simp only [if_neg hxy, if_neg hyx] at hab
                simp only [if_neg hyz, if_neg hzy] at hbc
                simp only [if_neg h1, if_neg h2]
                exact ih ys zs hab hbc

theorem charListLt_eq_of_not_lt :
    ∀ a b : List Char, charListLt a b = false → charListLt b a = false → a = b := by
  intro a
  induction a with
  | nil =>
    intro b hab _
    cases b with
    | nil => rfl
    | cons y ys => simp [charListLt] at hab
  | cons x xs ih =>
    intro b hab hba
    cases b with
    | nil => simp [charListLt] at hba
    | cons y ys =>
      simp only [charListLt] at hab hba
      by_cases hxy : x.toNat < y.toNat
      · simp [hxy] at hab
      · by_cases hyx : y.toNat < x.toNat
        · simp [hyx] at hba
        · simp only [if_neg hxy, if_neg hyx] at hab hba
          have hn : x.toNat = y.toNat := by omega
          have hx : x = y := Char.ext (UInt32.ext hn)
          rw [hx, ih ys hab hba]

/-- Transitivity of the derived non-strict order. -/
theorem charListLt_le_trans {a b c : List Char}
    (h1 : charListLt b a = false) (h2 : charListLt c b = false) : charListLt c a = false := by
  by_cases hca : charListLt c a = true
  · by_cases hbc : charListLt b c = true
    · exact absurd (charListLt_trans b c a hbc hca) (by simp [h1])
    · have : b = c := charListLt_eq_of_not_lt b c (by simpa using hbc) h2
      subst this
      simp [hca] at h1
  · simpa using hca

/-! Properties of the two sort comparators used for the dropdown options. -/

theorem defaultCompare_nonpos_iff (a b : JSValue) :
    defaultCompare a b ≤ 0 ↔ charListLt (jsToString b).data (jsToString a).data = false := by
  by_cases h1 : charListLt (jsToString a).data (jsToString b).data = true
  · have h2 := charListLt_asymm _ _ h1
    simp [defaultCompare, jsStrLt, h1, h2]
  · by_cases h2 : charListLt (jsToString b).data (jsToString a).data = true
    · simp [defaultCompare, jsStrLt, h1, h2]
    · simp [defaultCompare, jsStrLt, h1, h2]

theorem defaultCompare_total (a b : JSValue) :
    defaultCompare a b ≤ 0 ∨ defaultCompare b a ≤ 0 := by
  rw [defaultCompare_nonpos_iff, defaultCompare_nonpos_iff]
  by_cases h : charListLt (jsToString b).data (jsToString a).data = true
  · exact Or.inr (charListLt_asymm _ _ h)
  · exact Or.inl (by simpa using h)

theorem defaultCompare_trans (a b c : JSValue)
    (h1 : defaultCompare a b ≤ 0) (h2 : defaultCompare b c ≤ 0) : defaultCompare a c ≤ 0 := by
  rw [defaultCompare_nonpos_iff] at h1 h2 ⊢
  exact charListLt_le_trans h1 h2

theorem numCompare_total (a b : JSValue) : numCompare a b ≤ 0 ∨ numCompare b a ≤ 0 := by
  unfold numCompare; omega

theorem numCompare_trans (a b c : JSValue)
    (h1 : numCompare a b ≤ 0) (h2 : numCompare b c ≤ 0) : numCompare a c ≤ 0 := by
  unfold numCompare at *; omega

/-! Properties of the character-level split used by the semester key. -/

theorem splitChars_ne_nil (sep : Char) : ∀ l : List Char, splitChars sep l ≠ [] := by
  intro l
  cases l with
  | nil => simp [splitChars]
  | cons c cs =>
    simp only [splitChars]
    by_cases h : c = sep <;> simp [h]

theorem splitChars_no_sep (sep : Char) :
    ∀ l : List Char, sep ∉ l → splitChars sep l = [l] := by
  intro l
  induction l with
  | nil => intro _; rfl
  | cons c cs ih =>
    intro h
    have hc : ¬ c = sep := fun hh => h (hh ▸ List.mem_cons_self c cs)
    have hcs : sep ∉ cs := fun hh => h (List.mem_cons_of_mem c hh)
    simp only [splitChars, if_neg hc, ih hcs]
    rfl

theorem splitChars_append (sep : Char) (l1 l2 : List Char) (h : sep ∉ l1) :
    splitChars sep (l1 ++ sep :: l2) = l1 :: splitChars sep l2 := by
  induction l1 with
  | nil => simp [splitChars]
  | cons c cs ih =>
    have hc : ¬ c = sep := fun hh => h (hh ▸ List.mem_cons_self c cs)
    have hcs : sep ∉ cs := fun hh => h (List.mem_cons_of_mem c hh)
    rw [List.cons_append, splitChars, if_neg hc, ih hcs]
    rfl

/-! Small facts about normalization building blocks. -/

theorem orDefault_cases (o : Option JSValue) (d : JSValue) :
    (o = none → orDefault o d = d)
    ∧ (∀ v, o = some v → truthy v = false → orDefault o d = d)
    ∧ (∀ v, o = some v → truthy v = true → orDefault o d = v) := by
  refine ⟨?_, ?_, ?_⟩
  · intro h; rw [h]; rfl
  · intro v h hv; rw [h]; simp [orDefault, hv]
  · intro v h hv; rw [h]; simp [orDefault, hv]

theorem truthy_isNull_false {v : JSValue} (h : truthy v = true) : v.isNull = false := by
  cases v <;> simp_all [truthy, JSValue.isNull]

theorem orDefault_isNull_false {o : Option JSValue} {d : JSValue}
    (hd : d.isNull = false) : (orDefault o d).isNull = false := by
  match o with
  | none => simpa [orDefault]
  | some w =>
    by_cases hw : truthy w = true
    · simpa [orDefault, hw] using truthy_isNull_false hw
    · simp only [Bool.not_eq_true] at hw
      simpa [orDefault, hw]

theorem orDefault_str_or_verbatim (o : Option JSValue) (t : String) :
    (orDefault o (.str t)).isStr = true
    ∨ (o = some (orDefault o (.str t)) ∧ truthy (orDefault o (.str t)) = true) := by
  match o with
  | none => exact Or.inl rfl
  | some w =>
    by_cases hw : truthy w = true
    · by_cases hs : w.isStr = true
      · left
        simpa [orDefault, hw]
      · right
        simp [orDefault, hw]
    · left
      simp only [Bool.not_eq_true] at hw
      simp [orDefault, hw, JSValue.isStr]

mutual

theorem JSValue.beq_refl : ∀ a : JSValue, JSValue.beq a a = true
  | .null => rfl
  | .bool b => by simp [JSValue.beq]
  | .num n => by simp [JSValue.beq]
  | .str s => by simp [JSValue.beq]
  | .arr as => by simpa [JSValue.beq] using JSValue.beqList_refl as
  | .obj fs => by simpa [JSValue.beq] using JSValue.beqFields_refl fs

theorem JSValue.beqList_refl : ∀ as : List JSValue, JSValue.beqList as as = true
  | [] => rfl
  | a :: as => by simp [JSValue.beqList, JSValue.beq_refl a, JSValue.beqList_refl as]

theorem JSValue.beqFields_refl : ∀ fs : List (String × JSValue), JSValue.beqFields fs fs = true
  | [] => rfl
  | (k, v) :: fs => by simp [JSValue.beqFields, JSValue.beq_refl v, JSValue.beqFields_refl fs]

end

theorem JSValue.beq_str_inv {w : JSValue} {t : String}
    (h : JSValue.beq w (.str t) = true) : w = .str t := by
  cases w <;> simp_all [JSValue.beq]

theorem JSValue.beq_false_ne {a b : JSValue} (h : JSValue.beq a b = false) : a ≠ b := by
  intro hEq
  rw [hEq, JSValue.beq_refl b] at h
  exact absurd h (by simp)

/-! Facts about the `Set` model and the option-collection fold. -/

theorem mem_setAdd_of_mem {s : List JSValue} {x v : JSValue} (h : x ∈ s) : x ∈ setAdd s v := by
  unfold setAdd
  by_cases hc : s.any (fun w => JSValue.beq w v) = true
  · simpa [hc]
  · simp only [Bool.not_eq_true] at hc
    simp [hc]
    exact Or.inl h

theorem mem_of_mem_setAdd {s : List JSValue} {x v : JSValue} (h : x ∈ setAdd s v) :
    x ∈ s ∨ x = v := by
  unfold setAdd at h
  by_cases hc : s.any (fun w => JSValue.beq w v) = true
  · simp [hc] at h
    exact Or.inl h
  · simp only [Bool.not_eq_true] at hc
    simp [hc] at h
    exact h

theorem setAdd_pairwise {s : List JSValue} {v : JSValue}
    (h : s.Pairwise (fun a b => JSValue.beq a b = false)) :
    (setAdd s v).Pairwise (fun a b => JSValue.beq a b = false) := by
  unfold setAdd
  by_cases hc : s.any (fun w => JSValue.beq w v) = true
  · simpa [hc]
  · simp only [Bool.not_eq_true] at hc
    simp only [hc, if_false, Bool.false_eq_true]
    rw [List.pairwise_append]
    refine ⟨h, by simp, ?_⟩
    intro a ha b hb
    have hb' : b = v := by simpa using hb
    subst hb'
    have := List.any_eq_false.mp hc
    simpa using this a ha

theorem str_mem_setAdd (s : List JSValue) (t : String) :
    JSValue.str t ∈ setAdd s (.str t) := by
  unfold setAdd
  by_cases hc : s.any (fun w => JSValue.beq w (.str t)) = true
  · obtain ⟨w, hw, hbeq⟩ := List.any_eq_true.mp hc
    have := JSValue.beq_str_inv (by simpa using hbeq)
    subst this
    simpa [hc]
  · simp only [Bool.not_eq_true] at hc
    simp [hc]

/-- Step-invariance principle for the option-collection fold. -/
theorem foldl_collect_inv {P : List JSValue × List JSValue × List JSValue × List JSValue → Prop}
    (courses : List Course) :
    ∀ acc, P acc → (∀ acc c, c ∈ courses → P acc → P (collectStep acc c)) →
      P (courses.foldl collectStep acc) := by
  induction courses with
  | nil => intro acc h _; simpa using h
  | cons c cs ih =>
    intro acc h hstep
    simp only [List.foldl_cons]
    exact ih _ (hstep acc c (by simp) h)
      (fun a d hd ha => hstep a d (List.mem_cons_of_mem _ hd) ha)

/-! The semester key on well-formed two-token strings. -/

theorem semesterToNumber_term_year (term y : String)
    (hterm : ' ' ∉ term.data) (hy : ' ' ∉ y.data) :
    semesterToNumber (.str (term ++ " " ++ y)) =
      jsParseIntOr0 y.data * 10 +
        (if term = "Winter" then 1
         else if term = "Spring" then 2
         else if term = "Summer" then 3
         else if term = "Fall" then 4
         else 0) := by
  have hdata : (term ++ " " ++ y).data = term.data ++ ' ' :: y.data := by
    simp [String.data_append]
  have htr : truthy (.str (term ++ " " ++ y)) = true := by
    simp only [truthy, bne_iff_ne, ne_eq]
    intro hcontra
    have h0 : (term ++ " " ++ y).data = ([] : List Char) := by rw [hcontra]
    rw [hdata] at h0
    simp at h0
  have hsplit : splitChars ' ' (term ++ " " ++ y).data = [term.data, y.data] := by
    rw [hdata, splitChars_append ' ' term.data y.data hterm, splitChars_no_sep ' ' y.data hy]
  have hhead : (splitChars ' ' (term ++ " " ++ y).data).headD [] = term.data := by
    rw [hsplit]; rfl
  have hsecond : (splitChars ' ' (term ++ " " ++ y).data).getD 1 [] = y.data := by
    rw [hsplit]; rfl
  have hiff : ∀ t : String, (term.data = t.data) ↔ (term = t) :=
    fun t => ⟨fun h => String.ext h, fun h => by rw [h]⟩
  unfold semesterToNumber
  rw [htr]
  simp only [Bool.true_eq_false, if_false, hhead, hsecond, hiff]

/-! Wrappers around `List.insertionSort` for the three comparators. -/

theorem insertionSort_pairwise_default (l : List JSValue) :
    (List.insertionSort (fun a b => defaultCompare a b ≤ 0) l).Pairwise
      (fun a b => jsStrLe (jsToString a) (jsToString b) = true) := by
  have hs := @List.sorted_insertionSort JSValue (fun a b => defaultCompare a b ≤ 0) _
    ⟨defaultCompare_total⟩ ⟨defaultCompare_trans⟩ l
  refine hs.imp ?_
  intro a b hab
  rw [defaultCompare_nonpos_iff] at hab
  simp [jsStrLe, jsStrLt, hab]

theorem insertionSort_pairwise_num (l : List JSValue) :
    (List.insertionSort (fun a b => numCompare a b ≤ 0) l).Pairwise
      (fun a b => jsToNumber a ≤ jsToNumber b) := by
  have hs := @List.sorted_insertionSort JSValue (fun a b => numCompare a b ≤ 0) _
    ⟨numCompare_total⟩ ⟨numCompare_trans⟩ l
  refine hs.imp ?_
  intro a b hab
  unfold numCompare at hab
  omega

theorem sortCourses_pairwise_sem_earliest (cs : List Course) :
    (sortCourses cs "sem-earliest").Pairwise
      (fun a b => semesterToNumber a.semester ≤ semesterToNumber b.semester) := by
  have hne : ("sem-earliest" : String) = "none" → False := by intro h; simp at h
  unfold sortCourses
  rw [if_neg hne]
  have hs := @List.sorted_insertionSort Course (fun a b => courseCmp "sem-earliest" a b ≤ 0) _
    ⟨fun a b => by simp only [courseCmp]; omega⟩
    ⟨fun a b c h1 h2 => by simp only [courseCmp] at h1 h2 ⊢; omega⟩ cs
  refine hs.imp ?_
  intro a b hab
  simp only [courseCmp] at hab
  omega

theorem insertionSort_nodup {r : JSValue → JSValue → Prop} [DecidableRel r] {l : List JSValue}
    (h : l.Nodup) : (List.insertionSort r l).Nodup :=
  ((List.perm_insertionSort r l).nodup_iff).mpr h

theorem insertionSort_mem {r : JSValue → JSValue → Prop} [DecidableRel r] {l : List JSValue}
    {x : JSValue} (h : x ∈ l) : x ∈ List.insertionSort r l :=
  ((List.perm_insertionSort r l).mem_iff).mpr h

theorem insertionSort_mem_rev {r : JSValue → JSValue → Prop} [DecidableRel r] {l : List JSValue}
    {x : JSValue} (h : x ∈ List.insertionSort r l) : x ∈ l :=
  ((List.perm_insertionSort r l).mem_iff).mp h

/-- All four collected sets are duplicate-free (in the `beq` sense). -/
theorem collect_sets_pairwise (courses : List Course) :
    (collectOptionSets courses).1.Pairwise (fun a b => JSValue.beq a b = false)
    ∧ (collectOptionSets courses).2.1.Pairwise (fun a b => JSValue.beq a b = false)
    ∧ (collectOptionSets courses).2.2.1.Pairwise (fun a b => JSValue.beq a b = false)
    ∧ (collectOptionSets courses).2.2.2.Pairwise (fun a b => JSValue.beq a b = false) := by
  unfold collectOptionSets
  refine @foldl_collect_inv
    (fun t => t.1.Pairwise (fun a b => JSValue.beq a b = false)
      ∧ t.2.1.Pairwise (fun a b => JSValue.beq a b = false)
      ∧ t.2.2.1.Pairwise (fun a b => JSValue.beq a b = false)
      ∧ t.2.2.2.Pairwise (fun a b => JSValue.beq a b = false))
    courses ([], [], [], []) ?_ ?_
  · simp
  intro acc c _ ⟨h1, h2, h3, h4⟩
  refine ⟨setAdd_pairwise h1, ?_, ?_, setAdd_pairwise h4⟩
  · by_cases hl : c.level.isNull = true
    · simpa [collectStep, hl] using h2
    · simp only [Bool.not_eq_true] at hl
      simpa [collectStep, hl] using setAdd_pairwise h2
  · by_cases hl : c.credits.isNull = true
    · simpa [collectStep, hl] using h3
    · simp only [Bool.not_eq_true] at hl
      simpa [collectStep, hl] using setAdd_pairwise h3

/-- Every collected level is a number, given numeric-or-null levels; same
for credits. -/
theorem collect_levels_credits_isNum (courses : List Course)
    (hn : ∀ c ∈ courses, (c.level.isNull || c.level.isNum) = true
      ∧ (c.credits.isNull || c.credits.isNum) = true) :
    (∀ v ∈ (collectOptionSets courses).2.1, v.isNum = true)
    ∧ (∀ v ∈ (collectOptionSets courses).2.2.1, v.isNum = true) := by
  unfold collectOptionSets
  refine @foldl_collect_inv
    (fun t => (∀ v ∈ t.2.1, v.isNum = true) ∧ (∀ v ∈ t.2.2.1, v.isNum = true))
    courses ([], [], [], []) ?_ ?_
  · simp
  intro acc c hc ⟨h1, h2⟩
  constructor
  · intro v hv
    by_cases hl : c.level.isNull = true
    · simp only [collectStep, hl, if_true] at hv
      exact h1 v hv
    · simp only [Bool.not_eq_true] at hl
      simp only [collectStep, hl, Bool.false_eq_true, if_false] at hv
      rcases mem_of_mem_setAdd hv with h | h
      · exact h1 v h
      · subst h
        have := (hn c hc).1
        rw [hl] at this
        simpa using this
  · intro v hv
    by_cases hl : c.credits.isNull = true
    · simp only [collectStep, hl, if_true] at hv
      exact h2 v hv
    · simp only [Bool.not_eq_true] at hl
      simp only [collectStep, hl, Bool.false_eq_true, if_false] at hv
      rcases mem_of_mem_setAdd hv with h | h
      · exact h2 v h
      · subst h
        have := (hn c hc).2
        rw [hl] at this
        simpa using this

/-- Membership in the instructor set is preserved by the rest of the fold. -/
theorem mem_foldl_instructors (courses : List Course)
    (acc : List JSValue × List JSValue × List JSValue × List JSValue) {x : JSValue}
    (h : x ∈ acc.2.2.2) : x ∈ (courses.foldl collectStep acc).2.2.2 :=
  @foldl_collect_inv (fun t => x ∈ t.2.2.2) courses acc h
    (fun a c _ ha => by
      show x ∈ (collectStep a c).2.2.2
      simp only [collectStep]
      exact mem_setAdd_of_mem ha)

/-- A course with a falsy instructor puts the label `"TBA"` into the
instructor set. -/
theorem tba_mem_collect (courses : List Course) (c : Course)
    (hfalsy : truthy c.instructor = false) :
    ∀ acc, c ∈ courses → JSValue.str "TBA" ∈ (courses.foldl collectStep acc).2.2.2 := by
  induction courses with
  | nil => intro acc h; cases h
  | cons d ds ih =>
    intro acc hc
    simp only [List.foldl_cons]
    rcases List.mem_cons.mp hc with h | h
    · subst h
      apply mem_foldl_instructors
      have hlabel : c.getInstructorLabel = .str "TBA" := by
        simp [Course.getInstructorLabel, hfalsy]
      simpa [collectStep, hlabel] using str_mem_setAdd acc.2.2.2 "TBA"
    · exact ih _ h

/-- When every instructor is falsy, the instructor set stays `["TBA"]`. -/
theorem collect_instructors_all_tba (courses : List Course)
    (hall : ∀ c ∈ courses, truthy c.instructor = false) :
    ∀ acc : List JSValue × List JSValue × List JSValue × List JSValue,
      acc.2.2.2 = [JSValue.str "TBA"] →
      (courses.foldl collectStep acc).2.2.2 = [JSValue.str "TBA"] := by
  induction courses with
  | nil => intro acc h; simpa using h
  | cons d ds ih =>
    intro acc h
    simp only [List.foldl_cons]
    apply ih (fun c hc => hall c (List.mem_cons_of_mem _ hc))
    have hlabel : d.getInstructorLabel = .str "TBA" := by
      simp [Course.getInstructorLabel, hall d (by simp)]
    simp [collectStep, hlabel, h, setAdd, JSValue.beq]

/-- For a non-empty catalog in which every instructor is falsy, the derived
instructor options are exactly `["TBA"]`. -/
theorem deriveOptions_instructors_all_tba (courses : List Course) (hne : courses ≠ [])
    (hall : ∀ c ∈ courses, truthy c.instructor = false) :
    (deriveOptions courses).instructors = [JSValue.str "TBA"] := by
  obtain ⟨d, ds, rfl⟩ := List.exists_cons_of_ne_nil hne
  have hlabel : d.getInstructorLabel = .str "TBA" := by
    simp [Course.getInstructorLabel, hall d (by simp)]
  have hfirst : (collectStep ([], [], [], []) d).2.2.2 = [JSValue.str "TBA"] := by
    simp [collectStep, hlabel, setAdd]
  have hsets : (collectOptionSets (d :: ds)).2.2.2 = [JSValue.str "TBA"] := by
    unfold collectOptionSets
    simp only [List.foldl_cons]
    exact collect_instructors_all_tba ds (fun c hc => hall c (List.mem_cons_of_mem _ hc)) _ hfirst
  show List.insertionSort (fun a b => defaultCompare a b ≤ 0) (collectOptionSets (d :: ds)).2.2.2
      = [JSValue.str "TBA"]
  rw [hsets]
  rfl

/-! Claim theorems. -/

/-- Claim C1, counterexample: the claim says that immediately after ANY
load-failed notification — including a read-error — both `allCourses` and
`filteredCourses` are empty.  Concretely: load the one-course catalog
`[{"id":"CS101"}]` successfully, then let the reader fire `onerror`.  The
read-error notification is showing, yet both arrays still hold the
previously loaded catalog. -/
theorem c1_counterexample :
    (readError (onload initialState "none"
        (some (.arr [.obj [("id", .str "CS101")]])))).errorMsg
      = "Could not read file. please try again."
    ∧ (readError (onload initialState "none"
        (some (.arr [.obj [("id", .str "CS101")]])))).allCourses.isEmpty = false
    ∧ (readError (onload initialState "none"
        (some (.arr [.obj [("id", .str "CS101")]])))).filteredCourses.isEmpty = false :=
  ⟨rfl, rfl, rfl⟩

/-- Claim C1, amended: after a parse failure or a non-array root the load
handler leaves both course arrays empty, but a read-error
(`reader.onerror`) only sets the error message and leaves both arrays — and
hence any previously loaded catalog — unchanged, so after a read-error they
are empty only if they were empty before. -/
theorem c1_amended :
    (∀ (s : AppState) (sortv : String),
        (onload s sortv none).allCourses = [] ∧ (onload s sortv none).filteredCourses = [])
    ∧ (∀ (s : AppState) (sortv : String) (v : JSValue), v.isArr = false →
        (onload s sortv (some v)).allCourses = []
        ∧ (onload s sortv (some v)).filteredCourses = [])
    ∧ (∀ s : AppState,
        (readError s).allCourses = s.allCourses
        ∧ (readError s).filteredCourses = s.filteredCourses
        ∧ (readError s).errorMsg = "Could not read file. please try again.") := by
  refine ⟨fun s sortv => ⟨rfl, rfl⟩, ?_, fun s => ⟨rfl, rfl, rfl⟩⟩
  intro s sortv v hv
  cases v <;> first
    | exact ⟨rfl, rfl⟩
    | exact absurd hv (by simp [JSValue.isArr])

/-- Claim C1, witness: the amended theorem applied to the non-array root
`{"id":"CS101"}`. -/
theorem c1_amended_witness :
    (onload initialState "none" (some (.obj [("id", .str "CS101")]))).allCourses = []
    ∧ (onload initialState "none" (some (.obj [("id", .str "CS101")]))).filteredCourses = [] :=
  c1_amended.2.1 initialState "none" (.obj [("id", .str "CS101")]) rfl

/-- Claim C2, counterexample: the claim says a source record with
`level = 0` or `credits = 0` normalizes to `0`, not `null`.  In the code
every field goes through `||`, and `0` is falsy, so both normalize to
`null`. -/
theorem c2_counterexample :
    (Course.ofRaw [("level", .num 0), ("credits", .num 0)]).level = .null
    ∧ (Course.ofRaw [("level", .num 0), ("credits", .num 0)]).credits = .null
    ∧ ((Course.ofRaw [("level", .num 0), ("credits", .num 0)]).level).isNum = false :=
  ⟨rfl, rfl, rfl⟩

/-- Claim C2, amended: normalization stores `level`, `credits` and
`instructor` as `null` when the source field is absent OR falsy (so `0`,
`""`, `false` and `null` all become `null`), and verbatim when truthy; the
five string fields get their sentinel defaults exactly when the source
value is absent or falsy, and the verbatim source value when truthy — the
treat-falsy-as-absent replacement applies to all eight fields, not only to
the five string fields. -/
theorem c2_amended (raw : List (String × JSValue)) (v : JSValue) :
    ((getField raw "level" = none → (Course.ofRaw raw).level = .null)
      ∧ (getField raw "level" = some v → truthy v = false → (Course.ofRaw raw).level = .null)
      ∧ (getField raw "level" = some v → truthy v = true → (Course.ofRaw raw).level = v))
    ∧ ((getField raw "credits" = none → (Course.ofRaw raw).credits = .null)
      ∧ (getField raw "credits" = some v → truthy v = false → (Course.ofRaw raw).credits = .null)
      ∧ (getField raw "credits" = some v → truthy v = true → (Course.ofRaw raw).credits = v))
    ∧ ((getField raw "instructor" = none → (Course.ofRaw raw).instructor = .null)
      ∧ (getField raw "instructor" = some v → truthy v = false → (Course.ofRaw raw).instructor = .null)
      ∧ (getField raw "instructor" = some v → truthy v = true → (Course.ofRaw raw).instructor = v))
    ∧ ((getField raw "id" = none → (Course.ofRaw raw).id = .str "Unknown ID")
      ∧ (getField raw "id" = some v → truthy v = false → (Course.ofRaw raw).id = .str "Unknown ID")
      ∧ (getField raw "id" = some v → truthy v = true → (Course.ofRaw raw).id = v))
    ∧ ((getField raw "title" = none → (Course.ofRaw raw).title = .str "Untitled course")
      ∧ (getField raw "title" = some v → truthy v = false → (Course.ofRaw raw).title = .str "Untitled course")
      ∧ (getField raw "title" = some v → truthy v = true → (Course.ofRaw raw).title = v))
    ∧ ((getField raw "department" = none → (Course.ofRaw raw).department = .str "Unknown department")
      ∧ (getField raw "department" = some v → truthy v = false → (Course.ofRaw raw).department = .str "Unknown department")
      ∧ (getField raw "department" = some v → truthy v = true → (Course.ofRaw raw).department = v))
    ∧ ((getField raw "description" = none → (Course.ofRaw raw).description = .str "No description available.")
      ∧ (getField raw "description" = some v → truthy v = false → (Course.ofRaw raw).description = .str "No description available.")
      ∧ (getField raw "description" = some v → truthy v = true → (Course.ofRaw raw).description = v))
    ∧ ((getField raw "semester" = none → (Course.ofRaw raw).semester = .str "Unknown semester")
      ∧ (getField raw "semester" = some v → truthy v = false → (Course.ofRaw raw).semester = .str "Unknown semester")
      ∧ (getField raw "semester" = some v → truthy v = true → (Course.ofRaw raw).semester = v)) := by
  refine ⟨⟨?_, ?_, ?_⟩, ⟨?_, ?_, ?_⟩, ⟨?_, ?_, ?_⟩, ⟨?_, ?_, ?_⟩,
    ⟨?_, ?_, ?_⟩, ⟨?_, ?_, ?_⟩, ⟨?_, ?_, ?_⟩, ⟨?_, ?_, ?_⟩⟩ <;>
    first
      | exact (orDefault_cases _ _).1
      | exact fun hh hv => (orDefault_cases _ _).2.1 v hh hv
      | exact fun hh hv => (orDefault_cases _ _).2.2 v hh hv

/-- Claim C2, witness: the amended theorem applied to the record
`{"level": 0}`, whose level normalizes to `null`. -/
theorem c2_amended_witness :
    (Course.ofRaw [("level", .num 0)]).level = .null :=
  (c2_amended [("level", .num 0)] (.num 0)).1.2.1 rfl rfl

/-- Claim C3: for every JSON root value that is not an array, the load
fails into the `catch` branch: both course arrays end empty, the failure
message is shown, no course is selected, and (the handler being a total
function of the parsed value) nothing escapes the load boundary. -/
theorem c3_not_an_array (s : AppState) (sortv : String) (v : JSValue)
    (hv : v.isArr = false) :
    (onload s sortv (some v)).allCourses = []
    ∧ (onload s sortv (some v)).filteredCourses = []
    ∧ (onload s sortv (some v)).errorMsg = "Invalid JSON file format."
    ∧ (onload s sortv (some v)).selectedId = none := by
  cases v <;> first
    | exact ⟨rfl, rfl, rfl, rfl⟩
    | exact absurd hv (by simp [JSValue.isArr])

/-- Claim C3, witness: loading the object root `{"id":"CS101"}` of the
specification scenario. -/
theorem c3_witness :
    (onload initialState "none" (some (.obj [("id", .str "CS101")]))).allCourses = []
    ∧ (onload initialState "none" (some (.obj [("id", .str "CS101")]))).filteredCourses = []
    ∧ (onload initialState "none" (some (.obj [("id", .str "CS101")]))).errorMsg
        = "Invalid JSON file format."
    ∧ (onload initialState "none" (some (.obj [("id", .str "CS101")]))).selectedId = none :=
  c3_not_an_array initialState "none" (.obj [("id", .str "CS101")]) rfl

/-- Claim C4, counterexample: the claim says the five string fields are
always strings; but a truthy non-string source value is stored verbatim,
so `{"id": 42}` yields a numeric `id`. -/
theorem c4_counterexample :
    ((Course.ofRaw [("id", .num 42)]).id).isStr = false
    ∧ (Course.ofRaw [("id", .num 42)]).id = .num 42 :=
  ⟨rfl, rfl⟩

/-- Claim C4, amended: normalization is total — every record yields a
`Course` (and a whole array of objects always loads, element by element, in
order); `id`, `title`, `department`, `description` and `semester` are never
`null` (nor `undefined`), and each of them is a string unless it is the
verbatim truthy non-string source value. -/
theorem c4_amended (raw : List (String × JSValue)) :
    (((Course.ofRaw raw).id).isNull = false
      ∧ ((Course.ofRaw raw).title).isNull = false
      ∧ ((Course.ofRaw raw).department).isNull = false
      ∧ ((Course.ofRaw raw).description).isNull = false
      ∧ ((Course.ofRaw raw).semester).isNull = false)
    ∧ (((Course.ofRaw raw).id).isStr = true
        ∨ (getField raw "id" = some ((Course.ofRaw raw).id)
            ∧ truthy ((Course.ofRaw raw).id) = true))
    ∧ (((Course.ofRaw raw).title).isStr = true
        ∨ (getField raw "title" = some ((Course.ofRaw raw).title)
            ∧ truthy ((Course.ofRaw raw).title) = true))
    ∧ (((Course.ofRaw raw).department).isStr = true
        ∨ (getField raw "department" = some ((Course.ofRaw raw).department)
            ∧ truthy ((Course.ofRaw raw).department) = true))
    ∧ (((Course.ofRaw raw).description).isStr = true
        ∨ (getField raw "description" = some ((Course.ofRaw raw).description)
            ∧ truthy ((Course.ofRaw raw).description) = true))
    ∧ (((Course.ofRaw raw).semester).isStr = true
        ∨ (getField raw "semester" = some ((Course.ofRaw raw).semester)
            ∧ truthy ((Course.ofRaw raw).semester) = true))
    ∧ (∀ objs : List (List (String × JSValue)),
        coursesOfJson (objs.map JSValue.obj) = some (objs.map Course.ofRaw)) := by
  refine ⟨⟨?_, ?_, ?_, ?_, ?_⟩, ?_, ?_, ?_, ?_, ?_, ?_⟩
  · exact orDefault_isNull_false rfl
  · exact orDefault_isNull_false rfl
  · exact orDefault_isNull_false rfl
  · exact orDefault_isNull_false rfl
  · exact orDefault_isNull_false rfl
  · exact orDefault_str_or_verbatim (getField raw "id") "Unknown ID"
  · exact orDefault_str_or_verbatim (getField raw "title") "Untitled course"
  · exact orDefault_str_or_verbatim (getField raw "department") "Unknown department"
  · exact orDefault_str_or_verbatim (getField raw "description") "No description available."
  · exact orDefault_str_or_verbatim (getField raw "semester") "Unknown semester"
  · intro objs
    induction objs with
    | nil => rfl
    | cons o os ih => simp [coursesOfJson, propSource, ih]

/-- Claim C5: filtering with all four selections set to `"All"` (and the
`'none'` sort key, which reorders nothing) passes every course, so the
filter returns the catalog itself, in order; at the state level, a run of
`applyFiltersAndSort` with that selection leaves `filteredCourses` equal to
`allCourses` (for an empty catalog the handler returns early, so the
hypothesis that `filteredCourses` is empty whenever `allCourses` is — an
invariant of every reachable state — is needed). -/
theorem c5_round_trip :
    (∀ (cs : List Course) (sortv : String),
        cs.filter (coursePasses (allAllSelection sortv)) = cs)
    ∧ (∀ s : AppState, (s.allCourses = [] → s.filteredCourses = []) →
        (applyFiltersAndSort s (allAllSelection "none")).filteredCourses = s.allCourses) := by
  have hpass : ∀ (sortv : String) (c : Course), coursePasses (allAllSelection sortv) c = true := by
    intro sortv c
    simp [coursePasses, allAllSelection]
  have hfilter : ∀ (cs : List Course) (sortv : String),
      cs.filter (coursePasses (allAllSelection sortv)) = cs := by
    intro cs sortv
    exact List.filter_eq_self.mpr (fun a _ => hpass sortv a)
  refine ⟨hfilter, ?_⟩
  intro s hinv
  rcases s with ⟨all, filtered, selid, err⟩
  cases all with
  | nil => simpa [applyFiltersAndSort] using hinv rfl
  | cons c cs =>
    show sortCourses ((c :: cs).filter (coursePasses (allAllSelection "none"))) "none" = c :: cs
    rw [hfilter]
    rfl

/-- Claim C5, witness: the state-level round trip on the two-course
scenario catalog. -/
theorem c5_witness :
    (applyFiltersAndSort
        { allCourses := scenarioCatalog, filteredCourses := [], selectedId := none, errorMsg := "" }
        (allAllSelection "none")).filteredCourses = scenarioCatalog :=
  c5_round_trip.2
    { allCourses := scenarioCatalog, filteredCourses := [], selectedId := none, errorMsg := "" }
    (fun h => absurd h (by simp [scenarioCatalog]))

/-- Claim C6: the semester key of `"<term> <year>"` is
`parseInt(year) * 10 + termRank` with Winter 1, Spring 2, Summer 3,
Fall 4 and rank 0 for any other term token; a missing (falsy) or unknown
semester string keys to 0; `sem-earliest` sorting is ascending on this key,
and the three-course example sorts exactly as the specification says
(keys 20204, 20211, 20212). -/
theorem c6_semester_key :
    (∀ (term y : String), ' ' ∉ term.data → ' ' ∉ y.data →
        semesterToNumber (.str (term ++ " " ++ y)) =
          jsParseIntOr0 y.data * 10 +
            (if term = "Winter" then 1
             else if term = "Spring" then 2
             else if term = "Summer" then 3
             else if term = "Fall" then 4
             else 0))
    ∧ semesterToNumber (.str "Fall 2020") = 20204
    ∧ semesterToNumber (.str "Winter 2021") = 20211
    ∧ semesterToNumber (.str "Spring 2021") = 20212
    ∧ semesterToNumber JSValue.null = 0
    ∧ semesterToNumber (.str "") = 0
    ∧ semesterToNumber (.str "Unknown semester") = 0
    ∧ (∀ cs : List Course,
        (sortCourses cs "sem-earliest").Pairwise
          (fun a b => semesterToNumber a.semester ≤ semesterToNumber b.semester))
    ∧ sortCourses [fall2020C, spring2021C, winter2021C] "sem-earliest"
        = [fall2020C, winter2021C, spring2021C] :=
  ⟨semesterToNumber_term_year, rfl, rfl, rfl, rfl, rfl, rfl,
    sortCourses_pairwise_sem_earliest, rfl⟩

/-- Claim C6, witness: the key formula applied to `"Fall 2099"`. -/
theorem c6_witness :
    semesterToNumber (.str ("Fall" ++ " " ++ "2099")) =
      jsParseIntOr0 ("2099" : String).data * 10 +
        (if ("Fall" : String) = "Winter" then 1
         else if ("Fall" : String) = "Spring" then 2
         else if ("Fall" : String) = "Summer" then 3
         else if ("Fall" : String) = "Fall" then 4
         else 0) :=
  c6_semester_key.1 "Fall" "2099" (by decide) (by decide)

/-- Claim C7, counterexample: the claim says a course with `level = null`
fails the level predicate for EVERY concrete (non-`"All"`) level selection.
But `String(null)` is the string `"null"`, so the concrete selection value
`"null"` matches such a course: CS101 passes the predicate and is the
filter result. -/
theorem c7_counterexample :
    cs101.level = .null
    ∧ coursePasses
        { dept := "All", level := "null", credits := "All", instructor := "All", sort := "none" }
        cs101 = true
    ∧ scenarioCatalog.filter
        (coursePasses
          { dept := "All", level := "null", credits := "All", instructor := "All", sort := "none" })
        = [cs101] :=
  ⟨rfl, rfl, rfl⟩

/-- Claim C7, amended: a course with `level = null` fails the level
predicate — and is excluded from the filter result — for every concrete
level selection other than the four-character string `"null"` (which does
match it, since the comparison coerces `null` to `"null"`); filtering the
scenario catalog with level `"3"` yields exactly `[CS202]`. -/
theorem c7_amended :
    (∀ (c : Course) (sel : Selection), c.level = .null →
        sel.level ≠ "All" → sel.level ≠ "null" →
        coursePasses sel c = false ∧ ∀ cs : List Course, c ∉ cs.filter (coursePasses sel))
    ∧ scenarioCatalog.filter
        (coursePasses
          { dept := "All", level := "3", credits := "All", instructor := "All", sort := "none" })
        = [cs202] := by
  constructor
  · intro c sel h1 h2 h3
    have hf : coursePasses sel c = false := by
      have ha : (sel.level == "All") = false := by simpa using h2
      have hb : ((jsToString c.level) == sel.level) = false := by
        rw [h1]
        show (("null" : String) == sel.level) = false
        simpa using fun h => h3 h.symm
      simp [coursePasses, ha, hb]
    refine ⟨hf, ?_⟩
    intro cs hmem
    have hp := (List.mem_filter.mp hmem).2
    rw [hf] at hp
    exact absurd hp (by simp)
  · rfl

/-- Claim C7, witness: the amended theorem applied to CS101 and the
level-`"3"` selection of the scenario. -/
theorem c7_witness :
    coursePasses
      { dept := "All", level := "3", credits := "All", instructor := "All", sort := "none" }
      cs101 = false
    ∧ cs101 ∉ scenarioCatalog.filter
        (coursePasses
          { dept := "All", level := "3", credits := "All", instructor := "All", sort := "none" }) := by
  have h := c7_amended.1 cs101
    { dept := "All", level := "3", credits := "All", instructor := "All", sort := "none" }
    rfl (by decide) (by decide)
  exact ⟨h.1, h.2 scenarioCatalog⟩

/-- Claim C8: the derived option sequences are duplicate-free and sorted —
departments and instructor labels by string order ascending, levels and
credits numerically ascending; `null` levels and credits contribute no
entry (every entry is a number), and every falsy-instructor course
contributes the one `"TBA"` label; on the scenario catalog the level
options are `[3]` and the instructor options are `["A. Lee", "TBA"]`.  The
hypotheses restrict the courses to the specification's data model
(primitive department and instructor, numeric-or-null level and credits) —
under it the structural `Set` and comparator models coincide with the
JavaScript semantics; the proofs of the model-level facts do not otherwise
use them. -/
theorem c8_derive_options (courses : List Course)
    (hn : ∀ c ∈ courses,
      (c.level.isNull || c.level.isNum) = true
      ∧ (c.credits.isNull || c.credits.isNum) = true
      ∧ c.department.isPrim = true ∧ c.instructor.isPrim = true) :
    ((deriveOptions courses).departments.Nodup
      ∧ (deriveOptions courses).departments.Pairwise
          (fun a b => jsStrLe (jsToString a) (jsToString b) = true))
    ∧ ((deriveOptions courses).levels.Nodup
      ∧ (deriveOptions courses).levels.Pairwise (fun a b => jsToNumber a ≤ jsToNumber b)
      ∧ (∀ v ∈ (deriveOptions courses).levels, v.isNum = true)
      ∧ JSValue.null ∉ (deriveOptions courses).levels)
    ∧ ((deriveOptions courses).credits.Nodup
      ∧ (deriveOptions courses).credits.Pairwise (fun a b => jsToNumber a ≤ jsToNumber b)
      ∧ (∀ v ∈ (deriveOptions courses).credits, v.isNum = true)
      ∧ JSValue.null ∉ (deriveOptions courses).credits)
    ∧ ((deriveOptions courses).instructors.Nodup
      ∧ (deriveOptions courses).instructors.Pairwise
          (fun a b => jsStrLe (jsToString a) (jsToString b) = true)
      ∧ (∀ c ∈ courses, truthy c.instructor = false →
          JSValue.str "TBA" ∈ (deriveOptions courses).instructors))
    ∧ (deriveOptions scenarioCatalog).levels = [.num 3]
    ∧ (deriveOptions scenarioCatalog).instructors = [.str "A. Lee", .str "TBA"] := by
  have hpair := collect_sets_pairwise courses
  have hnum := collect_levels_credits_isNum courses (fun c hc => ⟨(hn c hc).1, (hn c hc).2.1⟩)
  have hnodup : ∀ l : List JSValue,
      l.Pairwise (fun a b => JSValue.beq a b = false) → l.Nodup :=
    fun l h => h.imp (fun hab => JSValue.beq_false_ne hab)
  refine ⟨⟨?_, ?_⟩, ⟨?_, ?_, ?_, ?_⟩, ⟨?_, ?_, ?_, ?_⟩, ⟨?_, ?_, ?_⟩, rfl, rfl⟩
  · exact insertionSort_nodup (hnodup _ hpair.1)
  · exact insertionSort_pairwise_default _
  · exact insertionSort_nodup (hnodup _ hpair.2.1)
  · exact insertionSort_pairwise_num _
  · intro v hv
    exact hnum.1 v (insertionSort_mem_rev hv)
  · intro hv
    have := hnum.1 _ (insertionSort_mem_rev hv)
    simp [JSValue.isNum] at this
  · exact insertionSort_nodup (hnodup _ hpair.2.2.1)
  · exact insertionSort_pairwise_num _
  · intro v hv
    exact hnum.2 v (insertionSort_mem_rev hv)
  · intro hv
    have := hnum.2 _ (insertionSort_mem_rev hv)
    simp [JSValue.isNum] at this
  · exact insertionSort_nodup (hnodup _ hpair.2.2.2)
  · exact insertionSort_pairwise_default _
  · intro c hc hfalsy
    exact insertionSort_mem (tba_mem_collect courses c hfalsy ([], [], [], []) hc)

/-- Claim C8, witness: the sortedness and duplicate-freeness of the derived
department and instructor options on the scenario catalog. -/
theorem c8_witness :
    ((deriveOptions scenarioCatalog).departments.Nodup
      ∧ (deriveOptions scenarioCatalog).departments.Pairwise
          (fun a b => jsStrLe (jsToString a) (jsToString b) = true))
    ∧ (deriveOptions scenarioCatalog).levels.Nodup
    ∧ JSValue.str "TBA" ∈ (deriveOptions scenarioCatalog).instructors := by
  have h := c8_derive_options scenarioCatalog (by decide)
  exact ⟨h.1, h.2.1.1, h.2.2.2.1.2.2 cs101 (by simp [scenarioCatalog]) rfl⟩

/-- Claim C9: after every run of `applyFiltersAndSort`, the tracked
selection equals the identifier of the first element of the (new)
filtered result — `none` exactly when the result is empty — regardless of
any previous selection.  The first hypothesis is the reachable-state
invariant that `filteredCourses` is empty whenever `allCourses` is (the
empty-catalog early return leaves `filteredCourses` untouched); the second
restricts to string-typed `id`, `title` and `semester` fields, under which
the total sort model is faithful (the source comparator would throw on
non-string fields); the proof does not otherwise use it. -/
theorem c9_selection_tracking (s : AppState) (sel : Selection)
    (hinv : s.allCourses = [] → s.filteredCourses = [])
    (htyped : ∀ c ∈ s.allCourses,
      c.id.isStr = true ∧ c.title.isStr = true ∧ c.semester.isStr = true) :
    (applyFiltersAndSort s sel).selectedId
      = ((applyFiltersAndSort s sel).filteredCourses.head?).map Course.id := by
  rcases s with ⟨all, filtered, selid, err⟩
  cases all with
  | nil =>
    have hf : filtered = [] := hinv rfl
    subst hf
    simp [applyFiltersAndSort]
  | cons c cs =>
    simp only [applyFiltersAndSort]
    cases h : sortCourses ((c :: cs).filter (coursePasses sel)) sel.sort with
    | nil => simp [h]
    | cons d ds => simp [h]

/-- Claim C9, witness: the selection rule on the freshly loaded scenario
catalog with the all-`"All"` selection. -/
theorem c9_witness :
    (applyFiltersAndSort
        { allCourses := scenarioCatalog, filteredCourses := [], selectedId := none, errorMsg := "" }
        (allAllSelection "none")).selectedId
      = ((applyFiltersAndSort
          { allCourses := scenarioCatalog, filteredCourses := [], selectedId := none, errorMsg := "" }
          (allAllSelection "none")).filteredCourses.head?).map Course.id :=
  c9_selection_tracking
    { allCourses := scenarioCatalog, filteredCourses := [], selectedId := none, errorMsg := "" }
    (allAllSelection "none")
    (fun h => absurd h (by simp [scenarioCatalog]))
    (by decide)

/-- Claim C10: a present-but-falsy instructor field (for example the empty
string) is stored as `null`; the derived label is then `"TBA"`, the course
passes the filter whose instructor selection is `"TBA"` (others `"All"`),
and a non-empty catalog of falsy-instructor courses derives exactly the
single instructor option `"TBA"` — the treat-falsy-as-absent behavior
extends to `instructor`. -/
theorem c10_falsy_instructor (raw : List (String × JSValue)) (v : JSValue)
    (hget : getField raw "instructor" = some v) (hfalsy : truthy v = false) :
    (Course.ofRaw raw).instructor = .null
    ∧ (Course.ofRaw raw).getInstructorLabel = .str "TBA"
    ∧ (∀ sortv : String,
        coursePasses
          { dept := "All", level := "All", credits := "All", instructor := "TBA", sort := sortv }
          (Course.ofRaw raw) = true)
    ∧ (∀ cs : List Course, cs ≠ [] → (∀ c ∈ cs, truthy c.instructor = false) →
        (deriveOptions cs).instructors = [JSValue.str "TBA"]) := by
  have hinst : (Course.ofRaw raw).instructor = .null :=
    (orDefault_cases _ _).2.1 v hget hfalsy
  have hlabel : (Course.ofRaw raw).getInstructorLabel = .str "TBA" := by
    simp [Course.getInstructorLabel, hinst, truthy]
  refine ⟨hinst, hlabel, ?_, deriveOptions_instructors_all_tba⟩
  intro sortv
  simp [coursePasses, hlabel, strictEqStr]

/-- Claim C10, witness: the record `{"instructor": ""}`, and the one-course
catalog made of it. -/
theorem c10_witness :
    (Course.ofRaw [("instructor", .str "")]).instructor = .null
    ∧ (Course.ofRaw [("instructor", .str "")]).getInstructorLabel = .str "TBA"
    ∧ (deriveOptions [Course.ofRaw [("instructor", .str "")]]).instructors
        = [JSValue.str "TBA"] := by
  have h := c10_falsy_instructor [("instructor", .str "")] (.str "") rfl rfl
  exact ⟨h.1, h.2.1, h.2.2.2 [Course.ofRaw [("instructor", .str "")]] (by simp) (by decide)⟩
